import Mathlib

/-!
Shallow embedding of the client-side data-loading layer of the
vuejs-masterclass-2024-edition repository: the projects store loaders
(`src/stores/loaders/projects.ts`: `loadProject`/`loadProjects`,
`getProject`/`getProjects`, `validateCache`, `updateProject`) and the
grouped collaborator fetcher (`src/composables/collabs.ts`:
`getProfilesByIds`, `getGroupedCollabs`).

Asynchronous functions are embedded as explicit phases: the synchronous
prologue up to the first `await`, and a continuation applied to the
resolved value of the awaited promise.  The resolution of an external
Supabase query is an oracle argument of type `QueryResult`.
-/

namespace Masterclass

/-- Result shape of a resolved Supabase query, `{ data, error, status }`.
`data` is `none` when the payload is JS `null`; `error` is `none` when the
error field is JS `null` (errors are kept abstract as strings). -/
structure QueryResult (α : Type) where
  data : Option α
  error : Option String
  status : Nat
deriving DecidableEq

/-- Status enum of the `projects` table (`database/seed.sql`):
`current_status as enum ('in-progress', 'completed')`. -/
inductive CurrentStatus where
  | inProgress
  | completed
deriving DecidableEq

/-- A row of the `projects` table as loaded by `projectQuery`: the table
columns (`database/seed.sql`) together with the joined `tasks` relation
(kept abstract as a list of task identifiers). -/
structure Project where
  id : Int
  created_at : String
  name : String
  slug : String
  status : CurrentStatus
  collaborators : List String
  tasks : List String
deriving DecidableEq

/-- The fields of a `Project` other than `id` and `tasks`: the result of
the rest-destructuring `const { tasks, id, ...projectProperties } =
project.value` in `updateProject`. -/
structure ProjectProperties where
  created_at : String
  name : String
  slug : String
  status : CurrentStatus
  collaborators : List String
deriving DecidableEq

/-- Embeds the rest-destructuring `const { tasks, id, ...projectProperties }
= project.value`: every field of the project except `id` and `tasks`. -/
def projectProperties (p : Project) : ProjectProperties :=
  { created_at := p.created_at
    name := p.name
    slug := p.slug
    status := p.status
    collaborators := p.collaborators }

/-- Memoization cache backing `useMemoize` (`loadProject`, `loadProjects`).
Modelled from the spec: the implementation of `useMemoize` comes from the
external `@vueuse/core` package and is not part of the repository source;
this models the spec's `KeyedMemoAsync` contract (one cache entry per
distinct key, holding the in-flight-or-settled promise, persisting until
explicitly deleted).  Promises are identified by the numeric id of the
underlying invocation that created them; `calls` logs every invocation of
the underlying async function, in order. -/
structure MemoCache where
  entries : List (String × Nat)
  nextId : Nat
  calls : List String
deriving DecidableEq

/-- Modelled from the spec: `call(key)` of `KeyedMemoAsync` returns the
cached promise for `key` when present; on a miss it invokes the underlying
function (logged in `calls`), stores the fresh promise under `key` and
returns it. -/
def MemoCache.call (c : MemoCache) (k : String) : Nat × MemoCache :=
  match c.entries.lookup k with
  | some pid => (pid, c)
  | none =>
      (c.nextId,
       { entries := (k, c.nextId) :: c.entries
         nextId := c.nextId + 1
         calls := c.calls ++ [k] })

/-- Embeds `loaderFn.delete(key)`: removes the cache entry for `key` only. -/
def MemoCache.deleteKey (c : MemoCache) (k : String) : MemoCache :=
  { c with entries := c.entries.filter (fun e => e.1 != k) }

/-- The mutable state of the projects store (`src/stores/loaders/projects.ts`):
the two reactive refs (`projects`, `project`, `null` when empty), the two
memoization caches, and the error-sink log of `useErrorStore().setError`
calls (pairs of error and `customCode` status). -/
structure ProjectsStore where
  projects : Option (List Project)
  project : Option Project
  projectCache : MemoCache
  projectsCache : MemoCache
  errors : List (String × Nat)
deriving DecidableEq

/-- Embeds `updateProject`:
`if (!project.value) return;` then
`const { tasks, id, ...projectProperties } = project.value;` then
`await updateProjectQuery(projectProperties, project.value.id)`.
The external write is uninterpreted here; the second component records the payload and
identifier passed to `updateProjectQuery`, `none` when no write call was
issued.  The store state is returned unchanged (the write's result is
ignored by the source). -/
def updateProject (s : ProjectsStore) : ProjectsStore × Option (ProjectProperties × Int) :=
  match s.project with
  | none => (s, none)
  | some p => (s, some (projectProperties p, p.id))

/-- Embeds `validateCache` (`src/stores/loaders/projects.ts`), taking the
resolved value `fresh` of the background `finalQuery`:
`if (!ref.value) return;` then, inside the `.then` continuation,
`if (JSON.stringify(ref.value) === JSON.stringify(data)) return;` then
`loaderFn.delete(key);` and `if (!error && data) ref.value = data;`.
Returns the slot (`ref`) and the memoization cache after the step.
JSON-serialization equality of payloads is modelled as structural equality
on `Option V` (the serialization of our abstract payload values is
injective, and `null` serializes differently from every record).  The
source reads `ref.value` both in the guard and in the comparison; the model
takes both reads at the same state, which coincides with the source when no
other write lands between the two. -/
def validateCache {V : Type} [DecidableEq V] (slot : Option V) (cache : MemoCache)
    (key : String) (fresh : QueryResult V) : Option V × MemoCache :=
  match slot with
  | none => (slot, cache)
  | some v =>
      if (some v : Option V) = fresh.data then (slot, cache)
      else
        let cache := cache.deleteKey key
        if fresh.error.isNone && fresh.data.isSome then (fresh.data, cache)
        else (slot, cache)

/-- Synchronous prologue of `getProject(slug)`, everything before the first
`await`: `project.value = null` (reset before fetching), then the
synchronous part of invoking `loadProject(slug)` (the memo-cache lookup, and
on a miss the start of `projectQuery(slug)`); execution then suspends on the
`await`. -/
def getProjectStart (s : ProjectsStore) (slug : String) : ProjectsStore :=
  let s := { s with project := none }
  { s with projectCache := (s.projectCache.call slug).2 }

/-- Continuation of `getProject` once the awaited `loadProject(slug)` promise
resolves with `r`: `if (error) useErrorStore().setError({ error, customCode:
status })` then `if (data) project.value = data`, then the synchronous part
of the trailing `validateCache({...})` call, which mutates nothing (it only
checks the ref and registers the `.then` continuation of the fresh query;
that continuation is the separate `validateCache` step above). -/
def getProjectResume (s : ProjectsStore) (r : QueryResult Project) : ProjectsStore :=
  let s1 := match r.error with
    | some e => { s with errors := s.errors ++ [(e, r.status)] }
    | none => s
  match r.data with
  | some d => { s1 with project := some d }
  | none => s1

/-- Synchronous prologue of `getProjects()`, everything before the first
`await`: `projects.value = null`, then the synchronous part of invoking
`loadProjects('projects')`. -/
def getProjectsStart (s : ProjectsStore) : ProjectsStore :=
  let s := { s with projects := none }
  { s with projectsCache := (s.projectsCache.call ("projects")).2 }

/-- Continuation of `getProjects` once the awaited `loadProjects('projects')`
promise resolves with `r`: error branch, data branch, and the mutation-free
synchronous part of the trailing `validateCache` call. -/
def getProjectsResume (s : ProjectsStore) (r : QueryResult (List Project)) : ProjectsStore :=
  let s1 := match r.error with
    | some e => { s with errors := s.errors ++ [(e, r.status)] }
    | none => s
  match r.data with
  | some d => { s1 with projects := some d }
  | none => s1

/-- An event in an interleaved execution of `getProject` calls on the single
JS thread: the synchronous prologue of one call, or the resumption of one
call when its awaited load settles with a given result.  `await`-points are
the only suspension points, so any interleaving is a sequence of these
events. -/
inductive LoaderEv where
  | start (slug : String)
  | resume (r : QueryResult Project)

/-- One scheduler step: run the named synchronous segment of `getProject`. -/
def stepLoader (s : ProjectsStore) : LoaderEv → ProjectsStore
  | .start slug => getProjectStart s slug
  | .resume r => getProjectResume s r

/-- Runs a schedule of `getProject` segments left to right. -/
def runLoader (s : ProjectsStore) (evs : List LoaderEv) : ProjectsStore :=
  evs.foldl stepLoader s

/-- A collaborator profile row as returned by `groupedProfilesQuery`
(`username, avatar_url, id, full_name`). -/
structure Profile where
  id : String
  username : String
  full_name : String
  avatar_url : String
deriving DecidableEq

/-- The `Collabs` payload type: an array of collaborator profiles. -/
abbrev Collabs := List Profile

/-- Resolution oracle for `groupedProfilesQuery(userIds)`: the settled
result of the query for a given list of user ids. -/
abbrev ProfilesFetch := List String → QueryResult Collabs

/-- An element of the `items` argument of `getGroupedCollabs` (a project or
task row): only its `id` (as the string key it becomes in the result
object) and its `collaborators` list matter to the fetcher. -/
structure Item where
  id : String
  collaborators : List String
deriving DecidableEq

/-- The `GroupedCollabs` state: a JS object mapping item id to an array of
collaborator profiles; `none` models the absence of a key. -/
abbrev GroupedCollabs := String → Option Collabs

/-- Embeds `getProfilesByIds(userIds)` (`src/composables/collabs.ts`):
`const { data, error } = await groupedProfilesQuery(userIds);`
`if (error || !data) return [];`
`return data;` -/
def getProfilesByIds (fetch : ProfilesFetch) (userIds : List String) : Collabs :=
  let r := fetch userIds
  if r.error.isSome || r.data.isNone then [] else r.data.getD []

/-- Embeds `items.filter((item) => item.collaborators.length)` (JS number
truthiness: kept iff the list is non-empty). -/
def filteredItems (items : List Item) : List Item :=
  items.filter (fun item => item.collaborators.length != 0)

/-- Embeds `const results = await Promise.all(promises)` where `promises =
filteredItems.map((item) => getProfilesByIds(item.collaborators))`: the
awaited results array, index-aligned with the filtered items. -/
def groupedResults (fetch : ProfilesFetch) (items : List Item) : List Collabs :=
  (filteredItems items).map (fun item => getProfilesByIds fetch item.collaborators)

/-- Embeds the commit loop `filteredItems.forEach((item, index) =>
groupedCollabs.value[item.id] = results[index] ?? [])` as the ordered list
of key-value assignments it performs, starting at index `index`. -/
def commitWrites (results : List Collabs) : Nat → List Item → List (String × Collabs)
  | _, [] => []
  | index, item :: rest =>
      (item.id, results.getD index []) :: commitWrites results (index + 1) rest

/-- A single JS object assignment `map[key] = value`. -/
def mapWrite (m : GroupedCollabs) (k : String) (v : Collabs) : GroupedCollabs :=
  fun key => if key = k then some v else m key

/-- Applies a list of object assignments in order. -/
def writeAll (m : GroupedCollabs) (ws : List (String × Collabs)) : GroupedCollabs :=
  ws.foldl (fun acc kv => mapWrite acc kv.1 kv.2) m

/-- Outcome of one `getGroupedCollabs` batch: the resulting map, the ordered
list of map assignments the commit loop performed, and the ordered list of
`groupedProfilesQuery` invocations the batch issued (their `userIds`
arguments, one per filtered item). -/
structure BatchResult where
  map : GroupedCollabs
  writes : List (String × Collabs)
  fetchCalls : List (List String)

/-- Embeds `getGroupedCollabs(items)` run against the resolution oracle
`fetch`, starting from map state `m`:
filters the items, issues one `getProfilesByIds` fetch per filtered item,
awaits them all (`Promise.all`), then commits `results[index] ?? []` under
each filtered item's id in order. -/
def getGroupedCollabs (fetch : ProfilesFetch) (items : List Item)
    (m : GroupedCollabs) : BatchResult :=
  let writes := commitWrites (groupedResults fetch items) 0 (filteredItems items)
  { map := writeAll m writes
    writes := writes
    fetchCalls := (filteredItems items).map Item.collaborators }

/-- The observable `groupedCollabs` map after `settled` of the batch's
per-item fetches have settled: `await Promise.all` resumes the function body
only once every promise has settled, and the commit loop that follows
contains no `await`, so the map is untouched at every earlier point and
carries the full commit afterwards. -/
def groupedCollabsDuring (fetch : ProfilesFetch) (items : List Item)
    (m : GroupedCollabs) (settled : Nat) : GroupedCollabs :=
  if settled < (filteredItems items).length then m
  else (getGroupedCollabs fetch items m).map

/-! Helper lemmas about the map-assignment embedding and the memo cache. -/

theorem writeAll_frame (ws : List (String × Collabs)) (m : GroupedCollabs)
    (k : String) (hk : k ∉ ws.map Prod.fst) : writeAll m ws k = m k := by
  induction ws generalizing m with
  | nil => rfl
  | cons a t ih =>
      simp only [List.map_cons, List.mem_cons, not_or] at hk
      have : writeAll m (a :: t) = writeAll (mapWrite m a.1 a.2) t := rfl
      rw [this, ih _ hk.2, mapWrite, if_neg hk.1]

theorem writeAll_isSome (ws : List (String × Collabs)) (m : GroupedCollabs)
    (k : String) (hk : (m k).isSome) : ((writeAll m ws k).isSome) := by
  induction ws generalizing m with
  | nil => exact hk
  | cons a t ih =>
      have : writeAll m (a :: t) = writeAll (mapWrite m a.1 a.2) t := rfl
      rw [this]
      apply ih
      by_cases h : k = a.1
      · simp [mapWrite, h]
      · simpa [mapWrite, h] using hk

theorem writeAll_mem_nodup (ws : List (String × Collabs)) (m : GroupedCollabs)
    (k : String) (v : Collabs) (hnd : (ws.map Prod.fst).Nodup)
    (hmem : (k, v) ∈ ws) : writeAll m ws k = some v := by
  induction ws generalizing m with
  | nil => cases hmem
  | cons a t ih =>
      simp only [List.map_cons, List.nodup_cons] at hnd
      have hstep : writeAll m (a :: t) = writeAll (mapWrite m a.1 a.2) t := rfl
      rcases List.mem_cons.mp hmem with h | h
      · rw [hstep, writeAll_frame t _ k]
        · rw [← h, mapWrite, if_pos rfl]
        · rw [← h] at hnd
          exact hnd.1
      · exact hstep ▸ ih _ hnd.2 h

theorem commitWrites_keys (results : List Collabs) (i : Nat) (l : List Item) :
    (commitWrites results i l).map Prod.fst = l.map Item.id := by
  induction l generalizing i with
  | nil => rfl
  | cons a t ih => simp [commitWrites, ih]

theorem commitWrites_mem (results : List Collabs) (l : List Item)
    (i j : Nat) (h : j < l.length) :
    ((l.get ⟨j, h⟩).id, results.getD (i + j) []) ∈ commitWrites results i l := by
  induction l generalizing i j with
  | nil => cases h
  | cons a t ih =>
      cases j with
      | zero => simp [commitWrites]
      | succ j =>
          have hj : j < t.length := Nat.lt_of_succ_lt_succ h
          have := ih (i + 1) j hj
          have harith : i + 1 + j = i + (j + 1) := by omega
          rw [harith] at this
          exact List.mem_cons_of_mem _ this

theorem lookup_deleteKey (c : MemoCache) (k : String) :
    (c.deleteKey k).entries.lookup k = none := by
  show ((c.entries.filter (fun e => e.1 != k)).lookup k) = none
  induction c.entries with
  | nil => rfl
  | cons e t ih =>
      obtain ⟨k', v⟩ := e
      by_cases h : k' = k
      · simpa [List.filter_cons, h] using ih
      · simp only [List.filter_cons]
        have h1 : (k' != k) = true := by simp [h]
        rw [if_pos h1, List.lookup]
        have h2 : (k == k') = false := by simp [Ne.symm h]
        rw [h2]
        exact ih

theorem grouped_map_entry (fetch : ProfilesFetch) (items : List Item)
    (m : GroupedCollabs) (hnd : ((filteredItems items).map Item.id).Nodup)
    (j : Nat) (hj : j < (filteredItems items).length) :
    (getGroupedCollabs fetch items m).map ((filteredItems items).get ⟨j, hj⟩).id
      = some ((groupedResults fetch items).getD j []) := by
  have hnd' : ((commitWrites (groupedResults fetch items) 0
      (filteredItems items)).map Prod.fst).Nodup := by
    rw [commitWrites_keys]
    exact hnd
  have hmem := commitWrites_mem (groupedResults fetch items) (filteredItems items) 0 j hj
  rw [Nat.zero_add] at hmem
  exact writeAll_mem_nodup _ m _ _ hnd' hmem

theorem groupedResults_getD (fetch : ProfilesFetch) (items : List Item)
    (j : Nat) (hj : j < (filteredItems items).length) :
    (groupedResults fetch items).getD j []
      = getProfilesByIds fetch ((filteredItems items).get ⟨j, hj⟩).collaborators := by
  unfold groupedResults
  have hj' : j < ((filteredItems items).map
      (fun item => getProfilesByIds fetch item.collaborators)).length := by
    simpa using hj
  rw [List.getD_eq_getElem _ _ hj', List.getElem_map]
  rfl

/-! Example fixtures evaluated by the witness theorems. -/

def exProfile : Profile :=
  { id := "u1", username := "ann", full_name := "Ann", avatar_url := "a.png" }

def exFetch : ProfilesFetch := fun ids =>
  if ids = ["u1"] then { data := some [exProfile], error := none, status := 200 }
  else { data := none, error := some ("boom"), status := 500 }

def exItems : List Item :=
  [{ id := "p1", collaborators := ["u1"] },
   { id := "p2", collaborators := [] },
   { id := "p3", collaborators := ["u2"] }]

def exMap : GroupedCollabs := fun key => if key = "p9" then some [] else none

def emptyMemo : MemoCache := { entries := [], nextId := 0, calls := [] }

def exProjA : Project :=
  { id := 1, created_at := "2024-01-01", name := "Alpha", slug := "alpha"
    status := .inProgress, collaborators := ["u1"], tasks := ["t1"] }

def exProjB : Project :=
  { id := 2, created_at := "2024-01-02", name := "Beta", slug := "beta"
    status := .completed, collaborators := [], tasks := [] }

def exStore : ProjectsStore :=
  { projects := none, project := none, projectCache := emptyMemo
    projectsCache := emptyMemo, errors := [] }

def exStoreA : ProjectsStore := { exStore with project := some exProjA }

/-- C1: a `getGroupedCollabs` batch commits all-or-nothing: the map is
unchanged while fewer than all of the batch's fetches have settled; the keys
written are exactly the ids of the filtered items, in order; and the entry
under the j-th filtered item's id is the j-th element of the awaited results
array (defaulting to the empty list when that element is missing), provided
the filtered items' ids are distinct. -/
theorem getGroupedCollabs_commit (fetch : ProfilesFetch) (items : List Item)
    (m : GroupedCollabs) (hnd : ((filteredItems items).map Item.id).Nodup) :
    (∀ settled, settled < (filteredItems items).length →
        groupedCollabsDuring fetch items m settled = m) ∧
    ((getGroupedCollabs fetch items m).writes.map Prod.fst
        = (filteredItems items).map Item.id) ∧
    (∀ j (hj : j < (filteredItems items).length),
        (getGroupedCollabs fetch items m).map ((filteredItems items).get ⟨j, hj⟩).id
          = some ((groupedResults fetch items).getD j [])) := by
  refine ⟨?_, ?_, ?_⟩
  · intro settled hs
    unfold groupedCollabsDuring
    rw [if_pos hs]
  · exact commitWrites_keys _ 0 _
  · intro j hj
    exact grouped_map_entry fetch items m hnd j hj

theorem getGroupedCollabs_commit_witness :
    groupedCollabsDuring exFetch exItems exMap 1 = exMap ∧
    (getGroupedCollabs exFetch exItems exMap).map
        ((filteredItems exItems).get ⟨0, by decide⟩).id
      = some ((groupedResults exFetch exItems).getD 0 []) :=
  ⟨(getGroupedCollabs_commit exFetch exItems exMap (by decide)).1 1 (by decide),
   (getGroupedCollabs_commit exFetch exItems exMap (by decide)).2.2 0 (by decide)⟩

/-- C10: a `getGroupedCollabs` batch is frame-preserving: any key that is
not the id of one of the batch's filtered items keeps exactly its previous
value, and no existing key is ever deleted — an existing entry can only be
overwritten, never removed. -/
theorem getGroupedCollabs_frame (fetch : ProfilesFetch) (items : List Item)
    (m : GroupedCollabs) :
    (∀ k, k ∉ (filteredItems items).map Item.id →
        (getGroupedCollabs fetch items m).map k = m k) ∧
    (∀ k, (m k).isSome → ((getGroupedCollabs fetch items m).map k).isSome) := by
  constructor
  · intro k hk
    show writeAll m _ k = m k
    apply writeAll_frame
    rw [commitWrites_keys]
    exact hk
  · intro k hk
    exact writeAll_isSome _ m k hk

theorem getGroupedCollabs_frame_witness :
    (getGroupedCollabs exFetch exItems exMap).map ("p9") = exMap ("p9") ∧
    ((getGroupedCollabs exFetch exItems exMap).map ("p9")).isSome :=
  ⟨(getGroupedCollabs_frame exFetch exItems exMap).1 ("p9") (by decide),
   (getGroupedCollabs_frame exFetch exItems exMap).2 ("p9") (by decide)⟩

/-- C8: `getGroupedCollabs` skips every item whose collaborator list is
empty: no fetch is issued with that item's (empty) identifier list, no write
is keyed by its id, and the map keeps its previous value at its id (given
that ids are unique across the items); and a call on the empty item list
issues no fetch and performs no map mutation at all. -/
theorem getGroupedCollabs_skips_empty (fetch : ProfilesFetch) (items : List Item)
    (m : GroupedCollabs) (hnd : (items.map Item.id).Nodup) :
    (∀ item, item ∈ items → item.collaborators = [] →
        item.collaborators ∉ (getGroupedCollabs fetch items m).fetchCalls ∧
        item.id ∉ (getGroupedCollabs fetch items m).writes.map Prod.fst ∧
        (getGroupedCollabs fetch items m).map item.id = m item.id) ∧
    ((getGroupedCollabs fetch [] m).fetchCalls = [] ∧
     (getGroupedCollabs fetch [] m).writes = [] ∧
     ∀ k, (getGroupedCollabs fetch [] m).map k = m k) := by
  constructor
  · intro item hmem hempty
    have hid : item.id ∉ (filteredItems items).map Item.id := by
      intro hin
      rcases List.mem_map.mp hin with ⟨item', hmem', hid'⟩
      have hmem2 : item' ∈ items.filter (fun it => it.collaborators.length != 0) := hmem'
      have hmem'' : item' ∈ items := List.mem_of_mem_filter hmem2
      have hcol : (item'.collaborators.length != 0) = true :=
        (List.mem_filter.mp hmem2).2
      have : item' = item := List.inj_on_of_nodup_map hnd hmem'' hmem hid'
      rw [this, hempty] at hcol
      simp at hcol
    refine ⟨?_, ?_, ?_⟩
    · intro hin
      rcases List.mem_map.mp hin with ⟨item', hmem', hcol'⟩
      have hmem2 : item' ∈ items.filter (fun it => it.collaborators.length != 0) := hmem'
      have hcol : (item'.collaborators.length != 0) = true :=
        (List.mem_filter.mp hmem2).2
      rw [hcol', hempty] at hcol
      simp at hcol
    · show item.id ∉ (commitWrites (groupedResults fetch items) 0
        (filteredItems items)).map Prod.fst
      rw [commitWrites_keys]
      exact hid
    · show writeAll m _ item.id = m item.id
      apply writeAll_frame
      rw [commitWrites_keys]
      exact hid
  · exact ⟨rfl, rfl, fun _ => rfl⟩

theorem getGroupedCollabs_skips_empty_witness :
    ({ id := "p2", collaborators := [] } : Item).collaborators
      ∉ (getGroupedCollabs exFetch exItems exMap).fetchCalls ∧
    (getGroupedCollabs exFetch exItems exMap).map ("p2") = exMap ("p2") :=
  ⟨((getGroupedCollabs_skips_empty exFetch exItems exMap (by decide)).1
      { id := "p2", collaborators := [] } (by decide) rfl).1,
   ((getGroupedCollabs_skips_empty exFetch exItems exMap (by decide)).1
      { id := "p2", collaborators := [] } (by decide) rfl).2.2⟩

/-- C6: when the fetch for one filtered item reports an error or returns no
data, `getProfilesByIds` yields the empty list for that item, the batch
still commits an (empty-list) entry under that item's id, and the entry of
every item whose fetch result is unchanged is unaffected: it agrees with the
entry produced under any other oracle that resolves that item's fetch
identically. -/
theorem getGroupedCollabs_item_failure (fetch fetch' : ProfilesFetch)
    (items : List Item) (m : GroupedCollabs)
    (hnd : ((filteredItems items).map Item.id).Nodup)
    (i : Nat) (hi : i < (filteredItems items).length)
    (hfail : (fetch ((filteredItems items).get ⟨i, hi⟩).collaborators).error.isSome ∨
        (fetch ((filteredItems items).get ⟨i, hi⟩).collaborators).data = none) :
    getProfilesByIds fetch ((filteredItems items).get ⟨i, hi⟩).collaborators = [] ∧
    (getGroupedCollabs fetch items m).map ((filteredItems items).get ⟨i, hi⟩).id
      = some [] ∧
    (∀ j (hj : j < (filteredItems items).length),
        fetch ((filteredItems items).get ⟨j, hj⟩).collaborators
          = fetch' ((filteredItems items).get ⟨j, hj⟩).collaborators →
        (getGroupedCollabs fetch items m).map ((filteredItems items).get ⟨j, hj⟩).id
          = (getGroupedCollabs fetch' items m).map
              ((filteredItems items).get ⟨j, hj⟩).id) := by
  have hempty : getProfilesByIds fetch
      ((filteredItems items).get ⟨i, hi⟩).collaborators = [] := by
    rcases hfail with h | h
    · simp only [List.get_eq_getElem] at h
      simp [getProfilesByIds, h]
    · simp only [List.get_eq_getElem] at h
      simp [getProfilesByIds, h]
  refine ⟨hempty, ?_, ?_⟩
  · rw [grouped_map_entry fetch items m hnd i hi,
      groupedResults_getD fetch items i hi, hempty]
  · intro j hj hagree
    rw [grouped_map_entry fetch items m hnd j hj,
      grouped_map_entry fetch' items m hnd j hj,
      groupedResults_getD fetch items j hj,
      groupedResults_getD fetch' items j hj]
    unfold getProfilesByIds
    rw [hagree]

theorem getGroupedCollabs_item_failure_witness :
    getProfilesByIds exFetch
      ((filteredItems exItems).get ⟨1, by decide⟩).collaborators = [] ∧
    (getGroupedCollabs exFetch exItems exMap).map
      ((filteredItems exItems).get ⟨1, by decide⟩).id = some [] :=
  ⟨(getGroupedCollabs_item_failure exFetch exFetch exItems exMap (by decide)
      1 (by decide) (by decide)).1,
   (getGroupedCollabs_item_failure exFetch exFetch exItems exMap (by decide)
      1 (by decide) (by decide)).2.1⟩

/-- C2 (counterexample): the claim that a structurally differing fresh
result always gets written into the slot fails when the fresh result
carries an error: with slot `some ("X")` and fresh result
`{ data: null, error: "err", status: 500 }`, the serializations differ,
yet the slot keeps its old value instead of being replaced by the fresh
data (while the cache entry for the key is nevertheless deleted). -/
theorem validateCache_replace_counterexample :
    ((some ("X") : Option String)
        ≠ (QueryResult.mk (none : Option String) (some ("err")) 500).data) ∧
    (validateCache (some ("X")) emptyMemo ("projects")
        (QueryResult.mk (none : Option String) (some ("err")) 500)).1 = some ("X") ∧
    ((validateCache (some ("X")) emptyMemo ("projects")
        (QueryResult.mk (none : Option String) (some ("err")) 500)).1
      ≠ (QueryResult.mk (none : Option String) (some ("err")) 500).data) := by
  refine ⟨by decide, rfl, by decide⟩

/-- C2 (amended): `validateCache` is a no-op when the slot is empty or when
the fresh result serializes equal to the slot's value; when the slot holds
data and the fresh result differs, the memoized cache entry for the key is
deleted, and the slot is replaced with the fresh data exactly when the
fresh result has no error and non-null data — otherwise the slot keeps its
previous value. -/
theorem validateCache_behavior {V : Type} [DecidableEq V] (slot : Option V)
    (cache : MemoCache) (key : String) (fresh : QueryResult V) :
    (slot = none → validateCache slot cache key fresh = (slot, cache)) ∧
    (slot.isSome → slot = fresh.data →
        validateCache slot cache key fresh = (slot, cache)) ∧
    (slot.isSome → slot ≠ fresh.data →
        (validateCache slot cache key fresh).2 = cache.deleteKey key ∧
        (fresh.error = none → fresh.data.isSome →
            (validateCache slot cache key fresh).1 = fresh.data) ∧
        ((fresh.error ≠ none ∨ fresh.data = none) →
            (validateCache slot cache key fresh).1 = slot)) := by
  have hsome : ∀ (v : V), validateCache (some v) cache key fresh =
      if (some v : Option V) = fresh.data then (some v, cache)
      else if fresh.error.isNone && fresh.data.isSome then
        (fresh.data, cache.deleteKey key)
      else (some v, cache.deleteKey key) := by
    intro v
    by_cases h : (some v : Option V) = fresh.data
    · simp [validateCache, h]
    · by_cases hgood : fresh.error.isNone && fresh.data.isSome
      · simp [validateCache, h, hgood]
      · simp [validateCache, h, hgood]
  refine ⟨?_, ?_, ?_⟩
  · intro h
    rw [h]
    rfl
  · intro hs heq
    match slot, hs with
    | some v, _ =>
        rw [hsome v, if_pos heq]
  · intro hs hne
    match slot, hs with
    | some v, _ =>
        rw [hsome v]
        rw [if_neg hne]
        by_cases hgood : fresh.error.isNone && fresh.data.isSome
        · rw [if_pos hgood]
          refine ⟨rfl, fun _ _ => rfl, ?_⟩
          intro hbad
          simp only [Bool.and_eq_true, Option.isNone_iff_eq_none,
            Option.isSome_iff_exists] at hgood
          rcases hbad with hbad | hbad
          · exact absurd hgood.1 hbad
          · rcases hgood.2 with ⟨w, hw⟩
            rw [hbad] at hw
            cases hw
        · rw [if_neg hgood]
          refine ⟨rfl, ?_, fun _ => rfl⟩
          intro herr hdata
          simp [herr, hdata] at hgood

theorem validateCache_behavior_witness :
    (validateCache (some ("X")) emptyMemo ("projects")
        (QueryResult.mk (some ("Y")) (none : Option String) 200)).1 = some ("Y") ∧
    (validateCache (some ("X")) emptyMemo ("projects")
        (QueryResult.mk (some ("Y")) (none : Option String) 200)).2
      = emptyMemo.deleteKey ("projects") :=
  ⟨((validateCache_behavior (some ("X")) emptyMemo ("projects")
        (QueryResult.mk (some ("Y")) (none : Option String) 200)).2.2
      (by decide) (by decide)).2.1 rfl (by decide),
   ((validateCache_behavior (some ("X")) emptyMemo ("projects")
        (QueryResult.mk (some ("Y")) (none : Option String) 200)).2.2
      (by decide) (by decide)).1⟩

/-- C3: the synchronous prologue of `getProject` leaves the `project` slot
empty and the prologue of `getProjects` leaves the `projects` slot empty —
before the first await, from any prior state — and after the awaited load
resolves the slot holds exactly the resolved data, so a non-empty-to-
non-empty transition always passes through the explicit empty state. -/
theorem getProject_reset_before_fetch (s : ProjectsStore) (slug : String)
    (r : QueryResult Project) (rs : QueryResult (List Project)) :
    (getProjectStart s slug).project = none ∧
    (getProjectsStart s).projects = none ∧
    (getProjectResume (getProjectStart s slug) r).project = r.data ∧
    (getProjectsResume (getProjectsStart s) rs).projects = rs.data := by
  refine ⟨rfl, rfl, ?_, ?_⟩
  · unfold getProjectResume
    cases hr : r.data <;> cases he : r.error <;> simp [hr, he]
    · exact rfl
    · exact rfl
  · unfold getProjectsResume
    cases hr : rs.data <;> cases he : rs.error <;> simp [hr, he]
    · exact rfl
    · exact rfl

/-- C5: with two interleaved `getOne` calls — `getOne('a')` then
`getOne('b')` started before the first settles — the slot ends up holding
the data of whichever fetch settles last, even when that is the superseded
first navigation target: nothing discards the stale result. -/
theorem getOne_race_last_settle_wins (s : ProjectsStore) (a b : String)
    (ra rb : QueryResult Project) (da : Project) (ha : ra.data = some da) :
    (runLoader s [.start a, .start b, .resume rb, .resume ra]).project
      = some da := by
  show (getProjectResume (getProjectResume
      (getProjectStart (getProjectStart s a) b) rb) ra).project = some da
  unfold getProjectResume
  cases he : ra.error <;> simp [ha, he]

theorem getOne_race_last_settle_wins_witness :
    (runLoader exStore [.start ("alpha"), .start ("beta"),
        .resume (QueryResult.mk (some exProjB) none 200),
        .resume (QueryResult.mk (some exProjA) none 200)]).project
      = some exProjA :=
  getOne_race_last_settle_wins exStore ("alpha") ("beta")
    (QueryResult.mk (some exProjA) none 200)
    (QueryResult.mk (some exProjB) none 200) exProjA rfl

/-- C4: the memoized loader invokes the underlying query exactly on the
first call for a key — caching the resulting promise — returns the very
same promise and performs no further invocation on any repeated call with
that key, and performs a fresh invocation on the next call after the entry
for the key is deleted. -/
theorem memoCall_single_invocation (c : MemoCache) (k : String) :
    (c.entries.lookup k = none →
        (c.call k).2.calls = c.calls ++ [k] ∧
        (c.call k).2.entries.lookup k = some (c.call k).1) ∧
    (∀ pid, c.entries.lookup k = some pid → c.call k = (pid, c)) ∧
    ((c.call k).2.call k = ((c.call k).1, (c.call k).2)) ∧
    ((((c.call k).2.deleteKey k).call k).2.calls = (c.call k).2.calls ++ [k]) := by
  have hmiss : ∀ (d : MemoCache), d.entries.lookup k = none →
      (d.call k).2.calls = d.calls ++ [k] ∧
      (d.call k).2.entries.lookup k = some (d.call k).1 := by
    intro d h
    unfold MemoCache.call
    rw [h]
    exact ⟨rfl, by simp [List.lookup]⟩
  have hhit : ∀ (d : MemoCache) (pid : Nat), d.entries.lookup k = some pid →
      d.call k = (pid, d) := by
    intro d pid h
    unfold MemoCache.call
    rw [h]
  refine ⟨hmiss c, hhit c, ?_, ?_⟩
  · cases hl : c.entries.lookup k with
    | none => exact hhit _ _ (hmiss c hl).2
    | some pid =>
        have hc : c.call k = (pid, c) := hhit c pid hl
        have hlook : (c.call k).2.entries.lookup k = some ((c.call k).1) := by
          rw [hc]
          exact hl
        exact hhit _ _ hlook
  · exact (hmiss ((c.call k).2.deleteKey k) (lookup_deleteKey (c.call k).2 k)).1

theorem memoCall_single_invocation_witness :
    ((emptyMemo.call ("slug")).2.calls = emptyMemo.calls ++ ["slug"] ∧
      (emptyMemo.call ("slug")).2.entries.lookup ("slug")
        = some (emptyMemo.call ("slug")).1) ∧
    (emptyMemo.call ("slug")).2.call ("slug")
      = ((emptyMemo.call ("slug")).1, (emptyMemo.call ("slug")).2) ∧
    ((((emptyMemo.call ("slug")).2.deleteKey ("slug")).call ("slug")).2.calls
      = (emptyMemo.call ("slug")).2.calls ++ ["slug"]) :=
  ⟨(memoCall_single_invocation emptyMemo ("slug")).1 rfl,
   (memoCall_single_invocation emptyMemo ("slug")).2.2.1,
   (memoCall_single_invocation emptyMemo ("slug")).2.2.2⟩

/-- C7: calling `updateProject` while the `project` slot is empty is a
guarded no-op: no write payload is passed to `updateProjectQuery` and the
store state is unchanged (the early return happens before the
destructuring, so nothing is thrown either — the embedding is total). -/
theorem updateProject_empty_noop (s : ProjectsStore) (h : s.project = none) :
    updateProject s = (s, none) := by
  unfold updateProject
  rw [h]

theorem updateProject_empty_noop_witness :
    updateProject exStore = (exStore, none) :=
  updateProject_empty_noop exStore rfl

/-- C9: when the `project` slot holds `p`, `updateProject` passes to
`updateProjectQuery` exactly the payload `projectProperties p` and the
identifier `p.id`; the payload carries every field of `p` except `id` and
`tasks` — its fields equal the corresponding fields of `p`, and it is
unchanged by any modification of `p`'s `id` or `tasks`. -/
theorem updateProject_payload (s : ProjectsStore) (p : Project)
    (h : s.project = some p) :
    (updateProject s).1 = s ∧
    (updateProject s).2 = some (projectProperties p, p.id) ∧
    (projectProperties p).created_at = p.created_at ∧
    (projectProperties p).name = p.name ∧
    (projectProperties p).slug = p.slug ∧
    (projectProperties p).status = p.status ∧
    (projectProperties p).collaborators = p.collaborators ∧
    (∀ newId newTasks,
        projectProperties { p with id := newId, tasks := newTasks }
          = projectProperties p) := by
  unfold updateProject
  rw [h]
  exact ⟨rfl, rfl, rfl, rfl, rfl, rfl, rfl, fun _ _ => rfl⟩

theorem updateProject_payload_witness :
    (updateProject exStoreA).2 = some (projectProperties exProjA, exProjA.id) ∧
    projectProperties { exProjA with id := 99, tasks := [] }
      = projectProperties exProjA :=
  ⟨(updateProject_payload exStoreA exProjA rfl).2.1,
   (updateProject_payload exStoreA exProjA rfl).2.2.2.2.2.2.2 99 []⟩

end Masterclass
